import Mathlib

/-!
Verification development for the `shell-werk` LLM backend
(`src-tauri/src/llm.rs`).

Shallow embedding conventions:
* Rust `String` is modelled as `List Char` (`Str` below); `str::trim`,
  `trim_end_matches('/')` and `trim_start_matches("data:")` are modelled
  character-exactly via `List.dropWhile` on the two ends.
* The blocking HTTP transport is external to the repository; a
  chat-completion exchange is therefore a function parameter
  (`Provider := List ChatMessage → AssistantTurn`), and a streaming body is
  the list of text lines the `BufReader` yields, with `serde_json`
  incremental decoding a function parameter (`Decoder`).
* `next_id`'s wall-clock timestamp is modelled as a monotonically threaded
  counter; ids are opaque and never parsed by the code.
* Fallible Rust paths (`Result<T, LlmError>`, the `?` operator) become
  `Except LlmError`.
-/

namespace ShellWerk

/-- Rust strings, modelled as character lists. -/
abbrev Str := List Char

/-- Whitespace predicate used by Rust's `str::trim`. -/
def isWs (c : Char) : Bool := c.isWhitespace

/-- Leading-whitespace removal, the left half of `str::trim`. -/
def trimStart (s : Str) : Str := s.dropWhile isWs

/-- Trailing-whitespace removal, the right half of `str::trim`. -/
def trimEnd (s : Str) : Str := (s.reverse.dropWhile isWs).reverse

/-- Model of Rust `str::trim`: drop whitespace from both ends. -/
def trim (s : Str) : Str := trimEnd (trimStart s)

/-- Model of `str::trim_end_matches('/')`: drop every trailing slash. -/
def trimEndSlashes (s : Str) : Str := (s.reverse.dropWhile (fun c => c = '/')).reverse

/-- Model of `str::trim_start_matches("data:")`: repeatedly strip the
leading marker. -/
def trimStartMatchesData : Str → Str
  | 'd' :: 'a' :: 't' :: 'a' :: ':' :: rest => trimStartMatchesData rest
  | s => s

/-- `LlmProvider` from `llm.rs`: the two wire protocols. -/
inductive LlmProvider where
  | vllm
  | ollama
deriving DecidableEq, Repr

/-- `default_base_url` from `llm.rs`. -/
def default_base_url : LlmProvider → Str
  | .vllm => "http://127.0.0.1:8000".toList
  | .ollama => "http://127.0.0.1:11434".toList

/-- `ProviderConnectionConfig` from `llm.rs`. -/
structure ProviderConnectionConfig where
  base_url : Str
  api_key : Option Str
deriving DecidableEq, Repr

/-- `sanitize_optional` from `llm.rs`: trim, and map empty to `None`. -/
def sanitize_optional (value : Option Str) : Option Str :=
  value.bind fun input =>
    let trimmed := trim input
    if trimmed = [] then none else some trimmed

/-- `ProviderConnectionConfig::default_for` from `llm.rs`. -/
def ProviderConnectionConfig.default_for (provider : LlmProvider) : ProviderConnectionConfig :=
  { base_url := default_base_url provider, api_key := none }

/-- `ProviderConnectionConfig::normalize` from `llm.rs`: replace a
whitespace-only base URL by the provider default, then trim it and strip
trailing slashes, and sanitize the key. -/
def ProviderConnectionConfig.normalize (c : ProviderConnectionConfig)
    (provider : LlmProvider) : ProviderConnectionConfig :=
  let base := if trim c.base_url = [] then default_base_url provider else c.base_url
  { base_url := trimEndSlashes (trim base), api_key := sanitize_optional c.api_key }

/-- `ProviderCollection` from `llm.rs`: the fixed two-provider schema. -/
structure ProviderCollection where
  vllm : ProviderConnectionConfig
  ollama : ProviderConnectionConfig
deriving DecidableEq, Repr

/-- `ProviderCollection::default` from `llm.rs`. -/
def ProviderCollection.default : ProviderCollection :=
  { vllm := ProviderConnectionConfig.default_for .vllm
    ollama := ProviderConnectionConfig.default_for .ollama }

/-- `ProviderCollection::normalize` from `llm.rs`. -/
def ProviderCollection.normalize (c : ProviderCollection) : ProviderCollection :=
  { vllm := c.vllm.normalize .vllm, ollama := c.ollama.normalize .ollama }

/-- `ProviderCollection::get` from `llm.rs`: total on the two variants. -/
def ProviderCollection.get (c : ProviderCollection) :
    LlmProvider → Option ProviderConnectionConfig
  | .vllm => some c.vllm
  | .ollama => some c.ollama

/-- `LlmConfiguration` from `llm.rs`. -/
structure LlmConfiguration where
  active_provider : LlmProvider
  selected_model : Option Str
  providers : ProviderCollection
deriving DecidableEq, Repr

/-- `LlmConfiguration::default` from `llm.rs`. -/
def LlmConfiguration.default : LlmConfiguration :=
  { active_provider := .vllm, selected_model := none
    providers := ProviderCollection.default }

/-- `LlmConfiguration::normalize` from `llm.rs`. -/
def LlmConfiguration.normalize (c : LlmConfiguration) : LlmConfiguration :=
  { c with selected_model := sanitize_optional c.selected_model
           providers := c.providers.normalize }

/-- `LlmStore::load` from `llm.rs`, with the filesystem abstracted: the
argument is the parsed file contents when the file exists. -/
def LlmStore.load (parsed : Option LlmConfiguration) : LlmConfiguration :=
  match parsed with
  | some config => config.normalize
  | none => LlmConfiguration.default

/-- `LlmStore::replace`, the configuration mutation behind
`LlmState::persist_config` in `llm.rs`. -/
def persist_config (next : LlmConfiguration) : LlmConfiguration :=
  next.normalize

/-- `LlmState::update_selected_model` from `llm.rs`: sanitize the candidate
id and store it on the current configuration. -/
def update_selected_model (config : LlmConfiguration) (model_id : Option Str) :
    LlmConfiguration :=
  { config with selected_model := sanitize_optional model_id }

/-- `LlmModel` from `llm.rs`. -/
structure LlmModel where
  id : Str
  label : Str
  provider : LlmProvider
deriving DecidableEq, Repr

/-- `LlmError` from `llm.rs`; the wrapped foreign error values are reduced
to their display text. -/
inductive LlmError where
  | Io (msg : Str)
  | Serde (msg : Str)
  | Http (msg : Str)
  | Path (msg : Str)
  | Tool (msg : Str)
  | MissingProviderConfig (provider : LlmProvider)
deriving DecidableEq, Repr

/-- The `Display` implementation of `LlmError` from `llm.rs`. -/
def LlmError.display : LlmError → Str
  | .Io msg => "I/O error: ".toList ++ msg
  | .Serde msg => "Invalid configuration: ".toList ++ msg
  | .Http msg => "Request failed: ".toList ++ msg
  | .Path msg => msg
  | .Tool msg => msg
  | .MissingProviderConfig .vllm => "Missing configuration for provider Vllm".toList
  | .MissingProviderConfig .ollama => "Missing configuration for provider Ollama".toList

/-- `LlmState::list_models` from `llm.rs`, with the network fetch
(`fetch_models`) abstracted as a function parameter. -/
def list_models (fetch : LlmProvider → ProviderConnectionConfig → Except LlmError (List LlmModel))
    (config : LlmConfiguration) (provider : Option LlmProvider) :
    Except LlmError (List LlmModel) :=
  let provider_kind := provider.getD config.active_provider
  match config.providers.get provider_kind with
  | none => .error (.MissingProviderConfig provider_kind)
  | some provider_config => fetch provider_kind provider_config

/-- `ChatRole` from `llm.rs`. -/
inductive ChatRole where
  | system
  | user
  | assistant
  | tool
deriving DecidableEq, Repr

/-- `ChatMessage` from `llm.rs`: all fields are public and
serde-deserializable (with `tool_call_id` defaulting to `None`), so any
combination of field values is constructible. -/
structure ChatMessage where
  id : Str
  role : ChatRole
  content : Str
  tool_call_id : Option Str
deriving DecidableEq, Repr

/-- A `serde_json::Value`, as far as `execute_tool` inspects one. -/
inductive Json where
  | null
  | bool (b : Bool)
  | num (n : Int)
  | str (s : Str)
  | arr (items : List Json)
  | obj (fields : List (Str × Json))

/-- `serde_json::Value::get` on an object key, as used by `execute_tool`. -/
def Json.get (j : Json) (key : Str) : Option Json :=
  match j with
  | .obj fields => fields.lookup key
  | _ => none

/-- `serde_json::Value::as_str`, as used by `execute_tool`. -/
def Json.as_str : Json → Option Str
  | .str s => some s
  | _ => none

/-- `ToolCall` from `llm.rs`. -/
structure ToolCall where
  id : Str
  name : Str
  arguments : Json

/-- `AssistantTurn` from `llm.rs`: one normalized provider response. -/
structure AssistantTurn where
  content : Option Str
  tool_calls : List ToolCall

/-- `execute_tool` from `llm.rs`: exact-name dispatch against the fixed
implementations; only `mock_echo` is registered. -/
def execute_tool (call : ToolCall) : Except LlmError Str :=
  if call.name = "mock_echo".toList then
    let text := ((call.arguments.get "text".toList).bind Json.as_str).getD []
    .ok ("Echo: ".toList ++ text)
  else
    .error (.Tool ("Unknown tool: ".toList ++ call.name))

/-- `next_id` from `llm.rs`, with the microsecond timestamp modelled as a
threaded counter; ids are opaque and never parsed. -/
def next_id (kind : Str) (counter : Nat) : Str :=
  kind ++ '-' :: Nat.toDigits 10 counter

/-- `DialogueOutcome` pairs the `DialogueResponse` messages of `llm.rs`
with the number of chat-completion round-trips the turn performed (the
count of `send_chat_completion` calls), which is ghost state for the
termination bound. -/
structure DialogueOutcome where
  messages : List ChatMessage
  round_trips : Nat
deriving DecidableEq, Repr

/-- The chat-completion exchange `send_chat_completion` of `llm.rs`; model,
connection settings and the static tool registry are fixed for a turn, so a
provider is a function of the conversation only. -/
abbrev Provider := List ChatMessage → AssistantTurn

/-- The content step at the top of the `run_dialogue` loop in `llm.rs`:
non-whitespace assistant text is appended to both the conversation and the
appended-message list. -/
def append_assistant (pending_content : Option Str)
    (conversation appended : List ChatMessage) (counter : Nat) :
    List ChatMessage × List ChatMessage × Nat :=
  match pending_content with
  | some content =>
    if (trim content).isEmpty then (conversation, appended, counter)
    else
      let assistant_message : ChatMessage :=
        { id := next_id "assistant".toList counter, role := .assistant
          content := content, tool_call_id := none }
      (conversation ++ [assistant_message], appended ++ [assistant_message], counter + 1)
  | none => (conversation, appended, counter)

/-- The tool-execution `for` loop of `run_dialogue` in `llm.rs`: execute
every returned call in order, appending each result as a Tool message; an
`execute_tool` failure propagates out via the question-mark operator. -/
def execute_tool_calls (calls : List ToolCall)
    (conversation appended : List ChatMessage) (counter : Nat) :
    Except LlmError (List ChatMessage × List ChatMessage × Nat) :=
  match calls with
  | [] => .ok (conversation, appended, counter)
  | call :: rest =>
    match execute_tool call with
    | .error e => .error e
    | .ok result =>
      let tool_message : ChatMessage :=
        { id := next_id "tool".toList counter, role := .tool
          content := result, tool_call_id := some call.id }
      execute_tool_calls rest (conversation ++ [tool_message])
        (appended ++ [tool_message]) (counter + 1)

/-- The `loop` of `run_dialogue` in `llm.rs`. `iterations` is the source's
`u8` counter, `rt` the number of round-trips performed so far (ghost). The
loop breaks on a response without tool calls, or once `iterations`, after
incrementing, exceeds 3 (graceful truncation). -/
def dialogue_loop (provider : Provider) (pending : AssistantTurn)
    (conversation appended : List ChatMessage)
    (counter iterations rt : Nat) : Except LlmError DialogueOutcome :=
  let s1 := append_assistant pending.content conversation appended counter
  if pending.tool_calls.isEmpty then
    .ok { messages := s1.2.1, round_trips := rt }
  else
    match execute_tool_calls pending.tool_calls s1.1 s1.2.1 s1.2.2 with
    | .error e => .error e
    | .ok s2 =>
      if iterations + 1 > 3 then
        .ok { messages := s2.2.1, round_trips := rt }
      else
        dialogue_loop provider (provider s2.1) s2.1 s2.2.1 s2.2.2
          (iterations + 1) (rt + 1)
termination_by 4 - iterations
decreasing_by simp_wf; omega

/-- `run_dialogue` from `llm.rs`: validation, preconditions, user-message
append, first round-trip, then the tool-call loop. -/
def run_dialogue (provider : Provider) (config : LlmConfiguration)
    (history : List ChatMessage) (input : Str) (counter : Nat) :
    Except LlmError DialogueOutcome :=
  let trimmed := trim input
  if trimmed.isEmpty then .error (.Path "Message cannot be empty".toList)
  else
    match config.selected_model with
    | none => .error (.Path "Select a model before chatting".toList)
    | some _model =>
      match config.providers.get config.active_provider with
      | none => .error (.MissingProviderConfig config.active_provider)
      | some _provider_config =>
        let user_message : ChatMessage :=
          { id := next_id "user".toList counter, role := .user
            content := trimmed, tool_call_id := none }
        let conversation := history ++ [user_message]
        dialogue_loop provider (provider conversation) conversation []
          (counter + 1) 0 1

/-- `StreamEvent` from `llm.rs`: the only artifact the UI boundary
observes from a streaming turn. -/
inductive StreamEvent where
  | Answer (request_id : Str) (delta : Str)
  | Done (request_id : Str)
  | Error (request_id : Str) (message : Str)
deriving DecidableEq, Repr

/-- True exactly on the terminal events `Done` and `Error`. -/
def StreamEvent.is_terminal : StreamEvent → Bool
  | .Answer _ _ => false
  | .Done _ => true
  | .Error _ _ => true

/-- `OpenAiStreamDelta` from `llm.rs`. -/
structure OpenAiStreamDelta where
  content : Option Str
deriving DecidableEq, Repr

/-- `OpenAiStreamChoice` from `llm.rs`. -/
structure OpenAiStreamChoice where
  delta : OpenAiStreamDelta
deriving DecidableEq, Repr

/-- `OpenAiStreamChunk` from `llm.rs`. -/
structure OpenAiStreamChunk where
  choices : List OpenAiStreamChoice
deriving DecidableEq, Repr

/-- The `message` object of an `OllamaStreamChunk`; the stream path of
`llm.rs` reads only its optional `content` field. -/
structure OllamaStreamMessage where
  content : Option Str
deriving DecidableEq, Repr

/-- `OllamaStreamChunk` from `llm.rs`. -/
structure OllamaStreamChunk where
  message : Option OllamaStreamMessage
  done : Option Bool
deriving DecidableEq, Repr

/-- Incremental `serde_json::from_str` on one already-preprocessed line;
decoding is external-crate behavior, so it is a function parameter. -/
abbrev Decoder (α : Type) := Str → Except LlmError α

/-- The inner `for choice in chunk.choices` loop of `stream_openai` in
`llm.rs`: every non-empty delta emits an Answer, in order. -/
def openai_chunk_events (request_id : Str) (chunk : OpenAiStreamChunk) :
    List StreamEvent :=
  chunk.choices.filterMap fun choice =>
    match choice.delta.content with
    | some delta => if delta.isEmpty then none else some (.Answer request_id delta)
    | none => none

/-- `stream_openai` from `llm.rs`, past the request/transport plumbing: the
body is the list of lines `read_line` yields. Blank lines are skipped, the
leading data marker is stripped, the DONE sentinel emits Done and stops,
any other line is decoded (a failure aborts via the question-mark
operator) and its non-empty deltas emit Answers. Returns the emitted
events and the function's own result. -/
def stream_openai (decode : Decoder OpenAiStreamChunk) (request_id : Str) :
    List Str → List StreamEvent × Except LlmError Unit
  | [] => ([], .ok ())
  | line :: rest =>
    let trimmed := trim line
    if trimmed.isEmpty then stream_openai decode request_id rest
    else
      let payload := trim (trimStartMatchesData trimmed)
      if payload = "[DONE]".toList then ([.Done request_id], .ok ())
      else
        match decode payload with
        | .error e => ([], .error e)
        | .ok chunk =>
          let (events, result) := stream_openai decode request_id rest
          (openai_chunk_events request_id chunk ++ events, result)

/-- The per-chunk emission of `stream_ollama` in `llm.rs`: a non-empty
optional `message.content` emits one Answer. -/
def ollama_chunk_events (request_id : Str) (chunk : OllamaStreamChunk) :
    List StreamEvent :=
  match chunk.message with
  | some message =>
    match message.content with
    | some content =>
      if content.isEmpty then [] else [.Answer request_id content]
    | none => []
  | none => []

/-- `stream_ollama` from `llm.rs`, past the request/transport plumbing:
newline-delimited JSON, no data marker and no DONE sentinel; a line with
`done` true emits Done and stops consuming input immediately. -/
def stream_ollama (decode : Decoder OllamaStreamChunk) (request_id : Str) :
    List Str → List StreamEvent × Except LlmError Unit
  | [] => ([], .ok ())
  | line :: rest =>
    let trimmed := trim line
    if trimmed.isEmpty then stream_ollama decode request_id rest
    else
      match decode trimmed with
      | .error e => ([], .error e)
      | .ok chunk =>
        let head_events := ollama_chunk_events request_id chunk
        if chunk.done.getD false then
          (head_events ++ [.Done request_id], .ok ())
        else
          let (events, result) := stream_ollama decode request_id rest
          (head_events ++ events, result)

/-- `stream_chat` / `ProviderAdapter::stream` from `llm.rs`: dispatch on
the closed provider variant. -/
def stream_chat (provider : LlmProvider)
    (openai_decode : Decoder OpenAiStreamChunk)
    (ollama_decode : Decoder OllamaStreamChunk)
    (request_id : Str) (body : List Str) :
    List StreamEvent × Except LlmError Unit :=
  match provider with
  | .vllm => stream_openai openai_decode request_id body
  | .ollama => stream_ollama ollama_decode request_id body

/-- `run_stream` from `llm.rs`: the same validation and preconditions as
`run_dialogue`, then the spawned worker runs `stream_chat` and converts a
returned failure into a terminal Error event carrying the request id and
the error's display text. The `Except.ok` value is the full event sequence
emitted for the request id; precondition failures return `Except.error`
before any request is built, and the result is then independent of the
decoders and body. -/
def run_stream (openai_decode : Decoder OpenAiStreamChunk)
    (ollama_decode : Decoder OllamaStreamChunk)
    (config : LlmConfiguration) (history : List ChatMessage)
    (input : Str) (request_id : Str) (body : List Str) :
    Except LlmError (List StreamEvent) :=
  let trimmed := trim input
  if trimmed.isEmpty then .error (.Path "Message cannot be empty".toList)
  else
    match config.selected_model with
    | none => .error (.Path "Select a model before chatting".toList)
    | some _model =>
      match config.providers.get config.active_provider with
      | none => .error (.MissingProviderConfig config.active_provider)
      | some _provider_config =>
        let (events, result) :=
          stream_chat config.active_provider openai_decode ollama_decode
            request_id body
        match result with
        | .ok _ => .ok events
        | .error e => .ok (events ++ [.Error request_id e.display])

/-- The spec's selected-model invariant: absent, or a non-empty string
with no leading or trailing whitespace (i.e. fixed by `trim`). -/
def selected_model_ok : Option Str → Bool
  | none => true
  | some s => decide (s ≠ []) && decide (trim s = s)

/-- The spec's tool-linkage invariant on one message: the linkage id is
present iff the role is Tool. -/
def tool_linkage_ok (m : ChatMessage) : Bool :=
  m.tool_call_id.isSome == decide (m.role = .tool)

/- ### String lemmas for the trim machinery -/

theorem dropWhile_idem (p : Char → Bool) (l : List Char) :
    (l.dropWhile p).dropWhile p = l.dropWhile p := by
  induction l with
  | nil => rfl
  | cons x xs ih =>
    by_cases h : p x
    · simp only [List.dropWhile_cons, h, if_true, ih]
    · simp [List.dropWhile_cons, h]

theorem reverse_dropWhile_prefix_self (p : Char → Bool) (s : List Char) :
    (s.reverse.dropWhile p).reverse <+: s := by
  have h : s.reverse.dropWhile p <:+ s.reverse := List.dropWhile_suffix _
  have h2 := (List.reverse_prefix).mpr h
  simpa using h2

theorem dropWhile_cons_fixed (p : Char → Bool) (c : Char) (cs : List Char)
    (h : List.dropWhile p (c :: cs) = c :: cs) : p c = false := by
  by_cases hc : p c
  · exfalso
    rw [List.dropWhile_cons, if_pos hc] at h
    have hle := (List.dropWhile_suffix (l := cs) p).length_le
    have hlen := congrArg List.length h
    simp only [List.length_cons] at hlen
    omega
  · simp at hc
    exact hc

theorem trimStart_eq_self_of_prefix (s t : Str) (hs : trimStart s = s)
    (ht : t <+: s) : trimStart t = t := by
  cases t with
  | nil => rfl
  | cons c cs =>
    have hc : isWs c = false := by
      obtain ⟨u, hu⟩ := ht
      have hcons : trimStart (c :: (cs ++ u)) = c :: (cs ++ u) := by
        have hs' : s = c :: (cs ++ u) := by rw [← hu]; simp
        rw [← hs']
        exact hs
      exact dropWhile_cons_fixed _ _ _ hcons
    unfold trimStart
    rw [List.dropWhile_cons, hc]
    simp

theorem trimStart_fixed_head_not_ws (t : Str) (ch : Char)
    (h : trimStart t = t) (hh : t.head? = some ch) : isWs ch = false := by
  cases t with
  | nil => simp at hh
  | cons x xs =>
    rw [List.head?_cons, Option.some_inj] at hh
    subst hh
    exact dropWhile_cons_fixed _ _ _ h

theorem trimStart_idem (s : Str) : trimStart (trimStart s) = trimStart s :=
  dropWhile_idem _ _

theorem trimEnd_idem (s : Str) : trimEnd (trimEnd s) = trimEnd s := by
  unfold trimEnd
  rw [List.reverse_reverse, dropWhile_idem]

theorem trimStart_trimEnd (s : Str) (hs : trimStart s = s) :
    trimStart (trimEnd s) = trimEnd s :=
  trimStart_eq_self_of_prefix s _ hs (reverse_dropWhile_prefix_self _ s)

theorem trimStart_trim (s : Str) : trimStart (trim s) = trim s :=
  trimStart_trimEnd (trimStart s) (trimStart_idem s)

theorem trim_idem (s : Str) : trim (trim s) = trim s := by
  unfold trim
  rw [trimStart_trimEnd (trimStart s) (trimStart_idem s), trimEnd_idem]

theorem trimEndSlashes_idem (s : Str) :
    trimEndSlashes (trimEndSlashes s) = trimEndSlashes s := by
  unfold trimEndSlashes
  rw [List.reverse_reverse, dropWhile_idem]

theorem trimEndSlashes_getLast_ne (s : Str) (ch : Char)
    (h : (trimEndSlashes s).getLast? = some ch) : ch ≠ '/' := by
  unfold trimEndSlashes at h
  rw [List.getLast?_reverse] at h
  have hfalse : decide (ch = '/') = false := by
    generalize hl : List.dropWhile (fun c => decide (c = '/')) s.reverse = l at h
    cases l with
    | nil => simp at h
    | cons x xs =>
      rw [List.head?_cons, Option.some_inj] at h
      subst h
      revert hl
      generalize s.reverse = r
      intro hl
      induction r with
      | nil => simp at hl
      | cons y ys ih =>
        rw [List.dropWhile_cons] at hl
        by_cases hy : (decide (y = '/') : Bool)
        · rw [if_pos hy] at hl
          exact ih hl
        · rw [if_neg hy] at hl
          obtain ⟨h1, _⟩ := List.cons.inj hl
          subst h1
          simpa using hy
  simpa using hfalse

theorem trim_eq_nil_of_all_ws (s : Str) (h : ∀ c ∈ s, isWs c = true) :
    trim s = [] := by
  unfold trim trimStart
  rw [show List.dropWhile isWs s = [] from List.dropWhile_eq_nil_iff.mpr h]
  rfl

theorem sanitize_optional_ok (v : Option Str) :
    sanitize_optional v = none
    ∨ ∃ s, sanitize_optional v = some s ∧ s ≠ [] ∧ trim s = s := by
  cases v with
  | none => exact Or.inl rfl
  | some s =>
    by_cases h : trim s = []
    · left
      simp [sanitize_optional, h]
    · right
      exact ⟨trim s, by simp [sanitize_optional, h], h, trim_idem s⟩

theorem sanitize_optional_idem (v : Option Str) :
    sanitize_optional (sanitize_optional v) = sanitize_optional v := by
  rcases sanitize_optional_ok v with h | ⟨s, h, hne, hfix⟩
  · rw [h]; rfl
  · rw [h]
    simp [sanitize_optional, hfix, hne]

/- ### Normalization lemmas (claim C3) -/

theorem normalize_conn_base_url (c : ProviderConnectionConfig) (p : LlmProvider) :
    (c.normalize p).base_url =
      trimEndSlashes (trim (if trim c.base_url = [] then default_base_url p else c.base_url)) :=
  rfl

theorem normalize_conn_getLast (c : ProviderConnectionConfig) (p : LlmProvider)
    (ch : Char) (h : (c.normalize p).base_url.getLast? = some ch) : ch ≠ '/' := by
  rw [normalize_conn_base_url] at h
  exact trimEndSlashes_getLast_ne _ _ h

theorem normalize_conn_head (c : ProviderConnectionConfig) (p : LlmProvider)
    (ch : Char) (h : (c.normalize p).base_url.head? = some ch) : isWs ch = false := by
  rw [normalize_conn_base_url] at h
  set base := if trim c.base_url = [] then default_base_url p else c.base_url with hbase
  have hfix : trimStart (trimEndSlashes (trim base)) = trimEndSlashes (trim base) :=
    trimStart_eq_self_of_prefix (trim base) _ (trimStart_trim base)
      (reverse_dropWhile_prefix_self _ (trim base))
  exact trimStart_fixed_head_not_ws _ _ hfix h

theorem normalize_conn_idem (c : ProviderConnectionConfig) (p : LlmProvider)
    (hne : (c.normalize p).base_url ≠ [])
    (hfix : trim (c.normalize p).base_url = (c.normalize p).base_url) :
    (c.normalize p).normalize p = c.normalize p := by
  unfold ProviderConnectionConfig.normalize
  have hne' : trim (c.normalize p).base_url ≠ [] := by rw [hfix]; exact hne
  simp only [ProviderConnectionConfig.normalize] at hne' hfix ⊢
  rw [if_neg hne', hfix]
  have hslash : trimEndSlashes
      (trimEndSlashes (trim (if trim c.base_url = [] then default_base_url p else c.base_url)))
      = trimEndSlashes (trim (if trim c.base_url = [] then default_base_url p else c.base_url)) :=
    trimEndSlashes_idem _
  rw [hslash, sanitize_optional_idem]

/-- Fixture for the C3 counterexample: a configuration whose vllm base URL
is a single slash. -/
def c3_cex_config : LlmConfiguration :=
  { active_provider := .vllm
    selected_model := none
    providers :=
      { vllm := { base_url := "/".toList, api_key := none }
        ollama := { base_url := "http://b".toList, api_key := none } } }

/-- C3 counterexample: on the base URL consisting of one slash, `normalize`
produces an empty base URL (the claimed non-emptiness fails) and applying
`normalize` twice differs from applying it once (the claimed idempotence
fails), because the second pass substitutes the provider default for the
now-empty URL. -/
theorem C3_counterexample :
    (c3_cex_config.normalize).providers.vllm.base_url = []
    ∧ (c3_cex_config.normalize).normalize ≠ c3_cex_config.normalize := by
  constructor
  · decide
  · decide

/-- C3 (amended): for every configuration, each provider's normalized base
URL has no leading whitespace character and does not end in a slash; and
whenever both once-normalized base URLs are non-empty and fixed by `trim`
(no trailing whitespace), `normalize` is idempotent. The unconditional
idempotence and non-emptiness of the original claim fail
(`C3_counterexample`): stripping trailing slashes after trimming can
expose trailing whitespace or empty the URL. -/
theorem C3_normalize_amended (c : LlmConfiguration) :
    (∀ ch, (c.normalize.providers.vllm.base_url).head? = some ch → isWs ch = false)
    ∧ (∀ ch, (c.normalize.providers.ollama.base_url).head? = some ch → isWs ch = false)
    ∧ (∀ ch, (c.normalize.providers.vllm.base_url).getLast? = some ch → ch ≠ '/')
    ∧ (∀ ch, (c.normalize.providers.ollama.base_url).getLast? = some ch → ch ≠ '/')
    ∧ ((c.normalize.providers.vllm.base_url ≠ []
        ∧ trim c.normalize.providers.vllm.base_url = c.normalize.providers.vllm.base_url
        ∧ c.normalize.providers.ollama.base_url ≠ []
        ∧ trim c.normalize.providers.ollama.base_url = c.normalize.providers.ollama.base_url)
        → c.normalize.normalize = c.normalize) := by
  have hv : c.normalize.providers.vllm = c.providers.vllm.normalize .vllm := rfl
  have ho : c.normalize.providers.ollama = c.providers.ollama.normalize .ollama := rfl
  refine ⟨?_, ?_, ?_, ?_, ?_⟩
  · intro ch h
    rw [hv] at h
    exact normalize_conn_head _ _ _ h
  · intro ch h
    rw [ho] at h
    exact normalize_conn_head _ _ _ h
  · intro ch h
    rw [hv] at h
    exact normalize_conn_getLast _ _ _ h
  · intro ch h
    rw [ho] at h
    exact normalize_conn_getLast _ _ _ h
  · rintro ⟨hv1, hv2, ho1, ho2⟩
    rw [hv] at hv1 hv2
    rw [ho] at ho1 ho2
    show LlmConfiguration.mk c.active_provider
        (sanitize_optional (sanitize_optional c.selected_model))
        (ProviderCollection.mk ((c.providers.vllm.normalize .vllm).normalize .vllm)
          ((c.providers.ollama.normalize .ollama).normalize .ollama))
      = LlmConfiguration.mk c.active_provider (sanitize_optional c.selected_model)
        (ProviderCollection.mk (c.providers.vllm.normalize .vllm)
          (c.providers.ollama.normalize .ollama))
    rw [sanitize_optional_idem, normalize_conn_idem _ _ hv1 hv2,
      normalize_conn_idem _ _ ho1 ho2]

/-- Witness for `C3_normalize_amended`: the default configuration's
once-normalized base URLs are non-empty and trim-fixed, so the implication
fires and normalization is idempotent there. -/
theorem C3_normalize_amended_witness :
    (LlmConfiguration.default.normalize).normalize = LlmConfiguration.default.normalize :=
  (C3_normalize_amended LlmConfiguration.default).2.2.2.2 (by decide)

/- ### Selected-model sanitation (claim C10) -/

theorem sanitize_optional_sound (v : Option Str) :
    selected_model_ok (sanitize_optional v) = true := by
  rcases sanitize_optional_ok v with h | ⟨s, h, hne, hfix⟩
  · rw [h]; rfl
  · rw [h]
    simp [selected_model_ok, hne, hfix]

/-- C10: every configuration snapshot produced by the store operations
(load, persist, model selection) carries a selected model that is either
absent or a non-empty, fully trimmed string; and selecting a
whitespace-only model id clears the selection rather than storing it. -/
theorem C10_selected_model_invariant (parsed : Option LlmConfiguration)
    (config next : LlmConfiguration) (model_id : Option Str) (s : Str) :
    selected_model_ok (LlmStore.load parsed).selected_model = true
    ∧ selected_model_ok (persist_config next).selected_model = true
    ∧ selected_model_ok (update_selected_model config model_id).selected_model = true
    ∧ ((∀ ch ∈ s, isWs ch = true)
        → (update_selected_model config (some s)).selected_model = none) := by
  refine ⟨?_, ?_, ?_, ?_⟩
  · cases parsed with
    | none => rfl
    | some c => exact sanitize_optional_sound c.selected_model
  · exact sanitize_optional_sound next.selected_model
  · exact sanitize_optional_sound model_id
  · intro h
    show sanitize_optional (some s) = none
    simp [sanitize_optional, trim_eq_nil_of_all_ws s h]

/-- Witness for `C10_selected_model_invariant` at concrete inputs,
including a whitespace-only model id being cleared. -/
theorem C10_selected_model_invariant_witness :
    (update_selected_model LlmConfiguration.default (some "  ".toList)).selected_model = none :=
  (C10_selected_model_invariant none LlmConfiguration.default LlmConfiguration.default
    none "  ".toList).2.2.2 (by decide)

/- ### Input validation (claim C6) -/

/-- C6: an input that is empty or whitespace-only is rejected by both
`run_dialogue` and `run_stream` with the validation error, for every
history, configuration and provider behavior; since the result is the
same for every provider function, decoder and body, no chat-completion
request is issued and nothing configuration-derived is sent. -/
theorem C6_empty_input_rejected (provider : Provider)
    (openai_decode : Decoder OpenAiStreamChunk)
    (ollama_decode : Decoder OllamaStreamChunk)
    (config : LlmConfiguration) (history : List ChatMessage)
    (input : Str) (counter : Nat) (request_id : Str) (body : List Str)
    (h : ∀ c ∈ input, isWs c = true) :
    run_dialogue provider config history input counter
      = .error (.Path "Message cannot be empty".toList)
    ∧ run_stream openai_decode ollama_decode config history input request_id body
      = .error (.Path "Message cannot be empty".toList) := by
  have htrim : trim input = [] := trim_eq_nil_of_all_ws input h
  constructor
  · unfold run_dialogue
    simp [htrim]
  · unfold run_stream
    simp [htrim]

/-- Witness for `C6_empty_input_rejected` on a whitespace-only input. -/
theorem C6_empty_input_rejected_witness :
    run_dialogue (fun _ => { content := none, tool_calls := [] })
      LlmConfiguration.default [] " \t ".toList 0
      = .error (.Path "Message cannot be empty".toList) :=
  (C6_empty_input_rejected (fun _ => { content := none, tool_calls := [] })
    (fun _ => .error (.Serde [])) (fun _ => .error (.Serde []))
    LlmConfiguration.default [] " \t ".toList 0 [] [] (by decide)).1

/- ### Model listing and the fixed two-provider schema (claim C8) -/

/-- C8: under the fixed two-provider schema the provider lookup always
succeeds, so `list_models` always reaches the network fetch and its
MissingProviderConfig branch is unreachable; the defensive
missing-configuration failure (which would return before any network
call) is the dead `none` arm visible in `list_models`. -/
theorem C8_list_models_lookup_total
    (fetch : LlmProvider → ProviderConnectionConfig → Except LlmError (List LlmModel))
    (config : LlmConfiguration) (provider : Option LlmProvider) :
    ∃ provider_config,
      config.providers.get (provider.getD config.active_provider) = some provider_config
      ∧ list_models fetch config provider
          = fetch (provider.getD config.active_provider) provider_config := by
  cases hp : provider.getD config.active_provider with
  | vllm =>
    refine ⟨config.providers.vllm, rfl, ?_⟩
    unfold list_models
    rw [hp]
    rfl
  | ollama =>
    refine ⟨config.providers.ollama, rfl, ?_⟩
    unfold list_models
    rw [hp]
    rfl

/- ### Stream engine lemmas (claims C4, C5, C2) -/

theorem openai_chunk_events_single (request_id s : Str) (hs : s ≠ []) :
    openai_chunk_events request_id { choices := [{ delta := { content := some s } }] }
      = [.Answer request_id s] := by
  simp [openai_chunk_events, hs]

theorem openai_chunk_events_are_answers (request_id : Str) (chunk : OpenAiStreamChunk)
    (e : StreamEvent) (he : e ∈ openai_chunk_events request_id chunk) :
    ∃ d, e = .Answer request_id d := by
  unfold openai_chunk_events at he
  obtain ⟨choice, _, hc⟩ := List.mem_filterMap.mp he
  cases hcontent : choice.delta.content with
  | none => rw [hcontent] at hc; simp at hc
  | some d =>
    rw [hcontent] at hc
    dsimp only at hc
    by_cases hd : d = []
    · simp [hd] at hc
    · simp [hd] at hc
      exact ⟨d, hc.symm⟩

theorem ollama_chunk_events_are_answers (request_id : Str) (chunk : OllamaStreamChunk)
    (e : StreamEvent) (he : e ∈ ollama_chunk_events request_id chunk) :
    ∃ d, e = .Answer request_id d := by
  unfold ollama_chunk_events at he
  cases hm : chunk.message with
  | none => rw [hm] at he; simp at he
  | some message =>
    rw [hm] at he
    dsimp only at he
    cases hc : message.content with
    | none => rw [hc] at he; simp at he
    | some content =>
      rw [hc] at he
      dsimp only at he
      by_cases hce : content = []
      · simp [hce] at he
      · simp [hce] at he
        exact ⟨content, he⟩

theorem stream_openai_cons_skip (decode : Decoder OpenAiStreamChunk)
    (request_id line : Str) (rest : List Str) (ht : (trim line).isEmpty = true) :
    stream_openai decode request_id (line :: rest)
      = stream_openai decode request_id rest := by
  simp [stream_openai, ht]

theorem stream_openai_cons_done (decode : Decoder OpenAiStreamChunk)
    (request_id line : Str) (rest : List Str) (ht : (trim line).isEmpty = false)
    (hp : trim (trimStartMatchesData (trim line)) = "[DONE]".toList) :
    stream_openai decode request_id (line :: rest)
      = ([.Done request_id], .ok ()) := by
  simp [stream_openai, ht, hp]

theorem stream_openai_cons_chunk (decode : Decoder OpenAiStreamChunk)
    (request_id line : Str) (rest : List Str) (chunk : OpenAiStreamChunk)
    (ht : (trim line).isEmpty = false)
    (hd : trim (trimStartMatchesData (trim line)) ≠ "[DONE]".toList)
    (hc : decode (trim (trimStartMatchesData (trim line))) = .ok chunk) :
    stream_openai decode request_id (line :: rest)
      = (openai_chunk_events request_id chunk ++ (stream_openai decode request_id rest).1,
         (stream_openai decode request_id rest).2) := by
  have hd' : (trim (trimStartMatchesData (trim line)) = "[DONE]".toList) = False :=
    eq_false hd
  simp only [stream_openai, ht, Bool.false_eq_true, if_false, hd', hc]

theorem stream_openai_cons_fail (decode : Decoder OpenAiStreamChunk)
    (request_id line : Str) (rest : List Str) (err : LlmError)
    (ht : (trim line).isEmpty = false)
    (hd : trim (trimStartMatchesData (trim line)) ≠ "[DONE]".toList)
    (hc : decode (trim (trimStartMatchesData (trim line))) = .error err) :
    stream_openai decode request_id (line :: rest) = ([], .error err) := by
  have hd' : (trim (trimStartMatchesData (trim line)) = "[DONE]".toList) = False :=
    eq_false hd
  simp only [stream_openai, ht, Bool.false_eq_true, if_false, hd', hc]

/-- C4: an OpenAI-style body of two decodable chunks, each carrying one
non-empty delta, followed by a line whose stripped payload is the DONE
sentinel, emits exactly the two Answers in input order followed by exactly
one Done, with nothing after the Done; the concatenated deltas are the two
chunk texts in order. -/
theorem C4_openai_two_chunks_then_done (decode : Decoder OpenAiStreamChunk)
    (request_id l1 l2 l3 p1 p2 s1 s2 : Str)
    (h1t : (trim l1).isEmpty = false) (h1p : trim (trimStartMatchesData (trim l1)) = p1)
    (h1d : p1 ≠ "[DONE]".toList)
    (h1c : decode p1 = .ok { choices := [{ delta := { content := some s1 } }] })
    (h1s : s1 ≠ [])
    (h2t : (trim l2).isEmpty = false) (h2p : trim (trimStartMatchesData (trim l2)) = p2)
    (h2d : p2 ≠ "[DONE]".toList)
    (h2c : decode p2 = .ok { choices := [{ delta := { content := some s2 } }] })
    (h2s : s2 ≠ [])
    (h3t : (trim l3).isEmpty = false)
    (h3p : trim (trimStartMatchesData (trim l3)) = "[DONE]".toList) :
    stream_openai decode request_id [l1, l2, l3]
      = ([.Answer request_id s1, .Answer request_id s2, .Done request_id], .ok ()) := by
  rw [stream_openai_cons_chunk decode request_id l1 [l2, l3] _ h1t
      (by rw [h1p]; exact h1d) (by rw [h1p]; exact h1c),
    stream_openai_cons_chunk decode request_id l2 [l3] _ h2t
      (by rw [h2p]; exact h2d) (by rw [h2p]; exact h2c),
    stream_openai_cons_done decode request_id l3 [] h3t h3p,
    openai_chunk_events_single request_id s1 h1s,
    openai_chunk_events_single request_id s2 h2s]
  rfl

/-- Fixture decoder for concrete OpenAI-style stream computations. -/
def openai_fixture_decode : Decoder OpenAiStreamChunk := fun payload =>
  if payload = "one".toList then
    .ok { choices := [{ delta := { content := some "Hello".toList } }] }
  else if payload = "two".toList then
    .ok { choices := [{ delta := { content := some " world".toList } }] }
  else .error (.Serde "unexpected chunk".toList)

theorem stream_ollama_cons_skip (decode : Decoder OllamaStreamChunk)
    (request_id line : Str) (rest : List Str) (ht : (trim line).isEmpty = true) :
    stream_ollama decode request_id (line :: rest)
      = stream_ollama decode request_id rest := by
  simp [stream_ollama, ht]

theorem stream_ollama_cons_fail (decode : Decoder OllamaStreamChunk)
    (request_id line : Str) (rest : List Str) (err : LlmError)
    (ht : (trim line).isEmpty = false) (hc : decode (trim line) = .error err) :
    stream_ollama decode request_id (line :: rest) = ([], .error err) := by
  simp only [stream_ollama, ht, Bool.false_eq_true, if_false, hc]

theorem stream_ollama_cons_done (decode : Decoder OllamaStreamChunk)
    (request_id line : Str) (rest : List Str) (chunk : OllamaStreamChunk)
    (ht : (trim line).isEmpty = false) (hc : decode (trim line) = .ok chunk)
    (hdone : chunk.done.getD false = true) :
    stream_ollama decode request_id (line :: rest)
      = (ollama_chunk_events request_id chunk ++ [.Done request_id], .ok ()) := by
  simp only [stream_ollama, ht, Bool.false_eq_true, if_false, hc, hdone, if_true]

theorem stream_ollama_cons_chunk (decode : Decoder OllamaStreamChunk)
    (request_id line : Str) (rest : List Str) (chunk : OllamaStreamChunk)
    (ht : (trim line).isEmpty = false) (hc : decode (trim line) = .ok chunk)
    (hdone : chunk.done.getD false = false) :
    stream_ollama decode request_id (line :: rest)
      = (ollama_chunk_events request_id chunk ++ (stream_ollama decode request_id rest).1,
         (stream_ollama decode request_id rest).2) := by
  simp only [stream_ollama, ht, Bool.false_eq_true, if_false, hc, hdone]

/-- C5: an Ollama-style body of two decodable records with non-empty
message content and done not set, then a record with done true and no
message, followed by arbitrary further lines, emits exactly the two
Answers in input order then exactly one Done; the lines after the done
record are never consumed and produce no events, matching the OpenAI-style
sequence without a DONE sentinel. -/
theorem C5_ollama_two_chunks_then_done (decode : Decoder OllamaStreamChunk)
    (request_id l1 l2 l3 : Str) (rest : List Str)
    (c1 c2 c3 : OllamaStreamChunk) (s1 s2 : Str)
    (h1t : (trim l1).isEmpty = false) (h1c : decode (trim l1) = .ok c1)
    (h1m : c1.message = some { content := some s1 }) (h1s : s1 ≠ [])
    (h1d : c1.done.getD false = false)
    (h2t : (trim l2).isEmpty = false) (h2c : decode (trim l2) = .ok c2)
    (h2m : c2.message = some { content := some s2 }) (h2s : s2 ≠ [])
    (h2d : c2.done.getD false = false)
    (h3t : (trim l3).isEmpty = false) (h3c : decode (trim l3) = .ok c3)
    (h3m : c3.message = none) (h3d : c3.done = some true) :
    stream_ollama decode request_id (l1 :: l2 :: l3 :: rest)
      = ([.Answer request_id s1, .Answer request_id s2, .Done request_id], .ok ()) := by
  have he1 : ollama_chunk_events request_id c1 = [.Answer request_id s1] := by
    simp [ollama_chunk_events, h1m, h1s]
  have he2 : ollama_chunk_events request_id c2 = [.Answer request_id s2] := by
    simp [ollama_chunk_events, h2m, h2s]
  have he3 : ollama_chunk_events request_id c3 = [] := by
    simp [ollama_chunk_events, h3m]
  rw [stream_ollama_cons_chunk decode request_id l1 (l2 :: l3 :: rest) c1 h1t h1c h1d,
    stream_ollama_cons_chunk decode request_id l2 (l3 :: rest) c2 h2t h2c h2d,
    stream_ollama_cons_done decode request_id l3 rest c3 h3t h3c (by rw [h3d]; rfl),
    he1, he2, he3]
  rfl

/-- Fixture decoder for concrete Ollama-style stream computations. -/
def ollama_fixture_decode : Decoder OllamaStreamChunk := fun payload =>
  if payload = "alpha".toList then
    .ok { message := some { content := some "Hel".toList }, done := some false }
  else if payload = "beta".toList then
    .ok { message := some { content := some "lo".toList }, done := none }
  else if payload = "final".toList then
    .ok { message := none, done := some true }
  else .error (.Serde "unexpected chunk".toList)

/-- Witness for `C5_ollama_two_chunks_then_done` on a concrete body; the
trailing junk line after the done record is ignored unread. -/
theorem C5_ollama_two_chunks_then_done_witness :
    stream_ollama ollama_fixture_decode "req-2".toList
        ["alpha".toList, "beta".toList, "final".toList, "junk".toList]
      = ([.Answer "req-2".toList "Hel".toList, .Answer "req-2".toList "lo".toList,
          .Done "req-2".toList], .ok ()) :=
  C5_ollama_two_chunks_then_done ollama_fixture_decode "req-2".toList
    "alpha".toList "beta".toList "final".toList ["junk".toList]
    { message := some { content := some "Hel".toList }, done := some false }
    { message := some { content := some "lo".toList }, done := none }
    { message := none, done := some true }
    "Hel".toList "lo".toList
    (by decide) rfl rfl (by decide) rfl
    (by decide) rfl rfl (by decide) rfl
    (by decide) rfl rfl rfl

/-- Witness for `C4_openai_two_chunks_then_done` on a concrete body with
the data markers and the literal DONE sentinel. -/
theorem C4_openai_two_chunks_then_done_witness :
    stream_openai openai_fixture_decode "req-1".toList
        ["data: one".toList, "data: two".toList, "data: [DONE]".toList]
      = ([.Answer "req-1".toList "Hello".toList, .Answer "req-1".toList " world".toList,
          .Done "req-1".toList], .ok ()) :=
  C4_openai_two_chunks_then_done openai_fixture_decode "req-1".toList
    "data: one".toList "data: two".toList "data: [DONE]".toList
    "one".toList "two".toList "Hello".toList " world".toList
    (by decide) (by decide) (by decide) rfl (by decide)
    (by decide) (by decide) (by decide) rfl (by decide)
    (by decide) (by decide)

/- ### Terminal-event structure of a stream (claim C2) -/

theorem stream_openai_shape (decode : Decoder OpenAiStreamChunk)
    (request_id : Str) (body : List Str) :
    ∃ answers : List StreamEvent,
      (∀ e ∈ answers, ∃ d, e = .Answer request_id d)
      ∧ (stream_openai decode request_id body = (answers, .ok ())
        ∨ stream_openai decode request_id body = (answers ++ [.Done request_id], .ok ())
        ∨ ∃ err, stream_openai decode request_id body = (answers, .error err)) := by
  induction body with
  | nil => exact ⟨[], by simp, Or.inl rfl⟩
  | cons line rest ih =>
    cases ht : (trim line).isEmpty with
    | true =>
      obtain ⟨answers, ha, hres⟩ := ih
      exact ⟨answers, ha, by rw [stream_openai_cons_skip decode request_id line rest ht]; exact hres⟩
    | false =>
      by_cases hd : trim (trimStartMatchesData (trim line)) = "[DONE]".toList
      · refine ⟨[], by simp, Or.inr (Or.inl ?_)⟩
        rw [stream_openai_cons_done decode request_id line rest ht hd]
        rfl
      · cases hc : decode (trim (trimStartMatchesData (trim line))) with
        | error err =>
          exact ⟨[], by simp, Or.inr (Or.inr ⟨err,
            stream_openai_cons_fail decode request_id line rest err ht hd hc⟩)⟩
        | ok chunk =>
          obtain ⟨answers, ha, hres⟩ := ih
          refine ⟨openai_chunk_events request_id chunk ++ answers, ?_, ?_⟩
          · intro e he
            rcases List.mem_append.mp he with h | h
            · exact openai_chunk_events_are_answers request_id chunk e h
            · exact ha e h
          · rw [stream_openai_cons_chunk decode request_id line rest chunk ht hd hc]
            rcases hres with h | h | ⟨err, h⟩
            · exact Or.inl (by rw [h])
            · refine Or.inr (Or.inl ?_)
              rw [h, List.append_assoc]
            · exact Or.inr (Or.inr ⟨err, by rw [h]⟩)

theorem stream_ollama_shape (decode : Decoder OllamaStreamChunk)
    (request_id : Str) (body : List Str) :
    ∃ answers : List StreamEvent,
      (∀ e ∈ answers, ∃ d, e = .Answer request_id d)
      ∧ (stream_ollama decode request_id body = (answers, .ok ())
        ∨ stream_ollama decode request_id body = (answers ++ [.Done request_id], .ok ())
        ∨ ∃ err, stream_ollama decode request_id body = (answers, .error err)) := by
  induction body with
  | nil => exact ⟨[], by simp, Or.inl rfl⟩
  | cons line rest ih =>
    cases ht : (trim line).isEmpty with
    | true =>
      obtain ⟨answers, ha, hres⟩ := ih
      exact ⟨answers, ha, by rw [stream_ollama_cons_skip decode request_id line rest ht]; exact hres⟩
    | false =>
      cases hc : decode (trim line) with
      | error err =>
        exact ⟨[], by simp, Or.inr (Or.inr ⟨err,
          stream_ollama_cons_fail decode request_id line rest err ht hc⟩)⟩
      | ok chunk =>
        cases hdone : chunk.done.getD false with
        | true =>
          refine ⟨ollama_chunk_events request_id chunk,
            fun e he => ollama_chunk_events_are_answers request_id chunk e he,
            Or.inr (Or.inl ?_)⟩
          rw [stream_ollama_cons_done decode request_id line rest chunk ht hc hdone]
        | false =>
          obtain ⟨answers, ha, hres⟩ := ih
          refine ⟨ollama_chunk_events request_id chunk ++ answers, ?_, ?_⟩
          · intro e he
            rcases List.mem_append.mp he with h | h
            · exact ollama_chunk_events_are_answers request_id chunk e h
            · exact ha e h
          · rw [stream_ollama_cons_chunk decode request_id line rest chunk ht hc hdone]
            rcases hres with h | h | ⟨err, h⟩
            · exact Or.inl (by rw [h])
            · refine Or.inr (Or.inl ?_)
              rw [h, List.append_assoc]
            · exact Or.inr (Or.inr ⟨err, by rw [h]⟩)

theorem ProviderCollection.get_eq (pc : ProviderCollection) (p : LlmProvider) :
    pc.get p = some (match p with | .vllm => pc.vllm | .ollama => pc.ollama) := by
  cases p <;> rfl

/-- Fixture configuration for concrete streaming turns: vllm active, a
model selected. -/
def stream_fixture_config : LlmConfiguration :=
  { active_provider := .vllm
    selected_model := some "demo-model".toList
    providers := ProviderCollection.default }

/-- C2 counterexample: an initiated OpenAI-style stream whose body ends
(EOF) after two content chunks without a DONE sentinel returns normally
with two Answer events and no terminal event at all — the sequence ends
with neither Done nor Error, contradicting the claimed guarantee. -/
theorem C2_counterexample :
    run_stream openai_fixture_decode ollama_fixture_decode stream_fixture_config []
        "hi".toList "req-1".toList ["data: one".toList, "data: two".toList]
      = .ok [.Answer "req-1".toList "Hello".toList, .Answer "req-1".toList " world".toList]
    ∧ (StreamEvent.Answer "req-1".toList " world".toList).is_terminal = false := by
  constructor
  · rfl
  · rfl

/-- C2 (amended): every initiated streaming turn (past the precondition
checks) emits a sequence of Answer events followed by at most one terminal
event — exactly one Done when the sentinel or done record is seen, exactly
one Error carrying the triggering request id and a message when a decode
failure occurs, and no terminal event when the body ends (EOF) without a
sentinel and without failure. The original claim's unconditional terminal
guarantee fails in that last case (`C2_counterexample`). -/
theorem C2_stream_terminal_amended (openai_decode : Decoder OpenAiStreamChunk)
    (ollama_decode : Decoder OllamaStreamChunk) (config : LlmConfiguration)
    (history : List ChatMessage) (input request_id : Str) (body : List Str)
    (model : Str) (hm : config.selected_model = some model)
    (hi : trim input ≠ []) :
    ∃ events answers tail,
      run_stream openai_decode ollama_decode config history input request_id body
        = .ok events
      ∧ events = answers ++ tail
      ∧ (∀ e ∈ answers, ∃ d, e = .Answer request_id d)
      ∧ (tail = []
        ∨ tail = [.Done request_id]
        ∨ ∃ msg, tail = [.Error request_id msg]) := by
  have hi' : (trim input).isEmpty = false := List.isEmpty_eq_false.mpr hi
  have hshape : ∃ answers : List StreamEvent,
      (∀ e ∈ answers, ∃ d, e = .Answer request_id d)
      ∧ (stream_chat config.active_provider openai_decode ollama_decode request_id body
            = (answers, .ok ())
        ∨ stream_chat config.active_provider openai_decode ollama_decode request_id body
            = (answers ++ [.Done request_id], .ok ())
        ∨ ∃ err, stream_chat config.active_provider openai_decode ollama_decode request_id body
            = (answers, .error err)) := by
    cases config.active_provider with
    | vllm => exact stream_openai_shape openai_decode request_id body
    | ollama => exact stream_ollama_shape ollama_decode request_id body
  rcases hshape with ⟨answers, ha, hsc | hsc | ⟨err, hsc⟩⟩
  · refine ⟨answers, answers, [], ?_, (List.append_nil answers).symm, ha, Or.inl rfl⟩
    simp only [run_stream, hi', Bool.false_eq_true, if_false, hm,
      ProviderCollection.get_eq, hsc]
  · refine ⟨answers ++ [.Done request_id], answers, [.Done request_id], ?_, rfl, ha,
      Or.inr (Or.inl rfl)⟩
    simp only [run_stream, hi', Bool.false_eq_true, if_false, hm,
      ProviderCollection.get_eq, hsc]
  · refine ⟨answers ++ [.Error request_id err.display], answers,
      [.Error request_id err.display], ?_, rfl, ha, Or.inr (Or.inr ⟨err.display, rfl⟩)⟩
    simp only [run_stream, hi', Bool.false_eq_true, if_false, hm,
      ProviderCollection.get_eq, hsc]

/-- Witness for `C2_stream_terminal_amended` on a concrete initiated
stream. -/
theorem C2_stream_terminal_amended_witness :
    ∃ events answers tail,
      run_stream openai_fixture_decode ollama_fixture_decode stream_fixture_config []
          "hi".toList "req-1".toList ["data: one".toList, "data: [DONE]".toList]
        = .ok events
      ∧ events = answers ++ tail
      ∧ (∀ e ∈ answers, ∃ d, e = .Answer "req-1".toList d)
      ∧ (tail = []
        ∨ tail = [.Done "req-1".toList]
        ∨ ∃ msg, tail = [.Error "req-1".toList msg]) :=
  C2_stream_terminal_amended openai_fixture_decode ollama_fixture_decode
    stream_fixture_config [] "hi".toList "req-1".toList
    ["data: one".toList, "data: [DONE]".toList] "demo-model".toList rfl (by decide)

/- ### Dialogue engine lemmas (claims C1, C7, C9) -/

theorem execute_tool_ok_of_registered (call : ToolCall)
    (h : call.name = "mock_echo".toList) :
    execute_tool call
      = .ok ("Echo: ".toList ++ ((call.arguments.get "text".toList).bind Json.as_str).getD []) := by
  unfold execute_tool
  rw [if_pos h]

theorem execute_tool_unknown (call : ToolCall)
    (h : call.name ≠ "mock_echo".toList) :
    execute_tool call = .error (.Tool ("Unknown tool: ".toList ++ call.name)) := by
  unfold execute_tool
  rw [if_neg h]

theorem execute_tool_calls_all_registered (calls : List ToolCall) :
    ∀ (conversation appended : List ChatMessage) (counter : Nat),
      (∀ c ∈ calls, c.name = "mock_echo".toList) →
      ∃ out : List ChatMessage × List ChatMessage × Nat,
        execute_tool_calls calls conversation appended counter = .ok out
        ∧ out.2.1.length = appended.length + calls.length := by
  induction calls with
  | nil =>
    intro conv app ctr _
    exact ⟨(conv, app, ctr), rfl, by simp⟩
  | cons call rest ih =>
    intro conv app ctr h
    have hcall := h call (List.mem_cons_self call rest)
    simp only [execute_tool_calls, execute_tool_ok_of_registered call hcall]
    obtain ⟨out, hout, hlen⟩ :=
      ih _ _ (ctr + 1) (fun c hc => h c (List.mem_cons_of_mem call hc))
    refine ⟨out, hout, ?_⟩
    rw [hlen]
    simp only [List.length_append, List.length_cons, List.length_nil]
    omega

theorem execute_tool_calls_unknown (good : List ToolCall) (bad : ToolCall)
    (rest : List ToolCall) (hg : ∀ c ∈ good, c.name = "mock_echo".toList)
    (hb : bad.name ≠ "mock_echo".toList) :
    ∀ (conversation appended : List ChatMessage) (counter : Nat),
      execute_tool_calls (good ++ bad :: rest) conversation appended counter
        = .error (.Tool ("Unknown tool: ".toList ++ bad.name)) := by
  induction good with
  | nil =>
    intro conv app ctr
    simp only [List.nil_append, execute_tool_calls, execute_tool_unknown bad hb]
  | cons call gr ih =>
    intro conv app ctr
    have hcall := hg call (List.mem_cons_self call gr)
    simp only [List.cons_append, execute_tool_calls,
      execute_tool_ok_of_registered call hcall]
    exact ih (fun c hc => hg c (List.mem_cons_of_mem call hc)) _ _ _

theorem execute_tool_calls_linkage (calls : List ToolCall) :
    ∀ (conversation appended : List ChatMessage) (counter : Nat)
      (out : List ChatMessage × List ChatMessage × Nat),
      execute_tool_calls calls conversation appended counter = .ok out →
      (∀ m ∈ appended, tool_linkage_ok m = true) →
      ∀ m ∈ out.2.1, tool_linkage_ok m = true := by
  induction calls with
  | nil =>
    intro conv app ctr out h happ
    simp only [execute_tool_calls] at h
    cases h
    exact happ
  | cons call rest ih =>
    intro conv app ctr out h happ
    simp only [execute_tool_calls] at h
    split at h
    · simp at h
    · refine ih _ _ _ out h ?_
      intro m hm
      rcases List.mem_append.mp hm with h1 | h1
      · exact happ m h1
      · simp only [List.mem_singleton] at h1
        subst h1
        rfl

theorem append_assistant_length (oc : Option Str)
    (conversation appended : List ChatMessage) (counter : Nat) :
    appended.length ≤ (append_assistant oc conversation appended counter).2.1.length := by
  unfold append_assistant
  cases oc with
  | none => simp
  | some content =>
    dsimp only
    by_cases hc : (trim content).isEmpty
    · rw [if_pos hc]
    · rw [if_neg hc]
      simp

theorem append_assistant_linkage (oc : Option Str)
    (conversation appended : List ChatMessage) (counter : Nat)
    (h : ∀ m ∈ appended, tool_linkage_ok m = true) :
    ∀ m ∈ (append_assistant oc conversation appended counter).2.1,
      tool_linkage_ok m = true := by
  intro m hm
  unfold append_assistant at hm
  cases oc with
  | none => exact h m hm
  | some content =>
    dsimp only at hm
    by_cases hc : (trim content).isEmpty
    · rw [if_pos hc] at hm
      exact h m hm
    · rw [if_neg hc] at hm
      dsimp only at hm
      rcases List.mem_append.mp hm with h1 | h1
      · exact h m h1
      · simp only [List.mem_singleton] at h1
        subst h1
        rfl

theorem run_dialogue_unfold (provider : Provider) (config : LlmConfiguration)
    (history : List ChatMessage) (input : Str) (counter : Nat) (model : Str)
    (hm : config.selected_model = some model) (hi : (trim input).isEmpty = false) :
    run_dialogue provider config history input counter
      = dialogue_loop provider
          (provider (history ++ [{ id := next_id "user".toList counter, role := .user,
                                   content := trim input, tool_call_id := none }]))
          (history ++ [{ id := next_id "user".toList counter, role := .user,
                         content := trim input, tool_call_id := none }])
          [] (counter + 1) 0 1 := by
  simp only [run_dialogue, hi, Bool.false_eq_true, if_false, hm, ProviderCollection.get_eq]

theorem dialogue_loop_good (provider : Provider)
    (hp : ∀ conv, (provider conv).tool_calls ≠ []
      ∧ ∀ c ∈ (provider conv).tool_calls, c.name = "mock_echo".toList) :
    ∀ (fuel iterations : Nat) (pending : AssistantTurn)
      (conversation appended : List ChatMessage) (counter : Nat),
      4 - iterations = fuel → iterations ≤ 3 →
      pending.tool_calls ≠ [] →
      (∀ c ∈ pending.tool_calls, c.name = "mock_echo".toList) →
      ∃ out, dialogue_loop provider pending conversation appended counter
          iterations (iterations + 1) = .ok out
        ∧ out.round_trips ≤ 4 ∧ appended.length < out.messages.length := by
  intro fuel
  induction fuel with
  | zero =>
    intro iterations pending conv app ctr hfuel hit _ _
    exact absurd hfuel (by omega)
  | succ n ihn =>
    intro iterations pending conv app ctr hfuel hit hne hreg
    have hempty : pending.tool_calls.isEmpty = false := List.isEmpty_eq_false.mpr hne
    obtain ⟨s2, hs2, hlen2⟩ := execute_tool_calls_all_registered pending.tool_calls
      (append_assistant pending.content conv app ctr).1
      (append_assistant pending.content conv app ctr).2.1
      (append_assistant pending.content conv app ctr).2.2 hreg
    have happlen : app.length < s2.2.1.length := by
      have h1 := append_assistant_length pending.content conv app ctr
      have h2 := List.length_pos.mpr hne
      omega
    rw [dialogue_loop]
    simp only [hempty, Bool.false_eq_true, if_false, hs2]
    by_cases hiter : iterations + 1 > 3
    · rw [if_pos hiter]
      exact ⟨⟨s2.2.1, iterations + 1⟩, rfl, show iterations + 1 ≤ 4 by omega, happlen⟩
    · rw [if_neg hiter]
      obtain ⟨out, hout, hrt, hlen⟩ := ihn (iterations + 1) (provider s2.1) s2.1 s2.2.1 s2.2.2
        (by omega) (by omega) (hp s2.1).1 (hp s2.1).2
      exact ⟨out, hout, hrt, by omega⟩

/-- C1 counterexample fixture: a provider that answers every round-trip
with a single tool call whose name matches no registered tool. -/
def bogus_tool_provider : Provider := fun _ =>
  { content := none
    tool_calls := [{ id := "call-1".toList, name := "bogus".toList, arguments := .null }] }

/-- C1 counterexample: against a provider that returns a tool call on
every round-trip but whose tool name is unregistered, `run_dialogue` does
not return normally: it terminates with the unknown-tool error and returns
no appended-message set at all. -/
theorem C1_counterexample :
    run_dialogue bogus_tool_provider stream_fixture_config [] "hi".toList 0
      = .error (.Tool "Unknown tool: bogus".toList) := by
  rw [run_dialogue_unfold bogus_tool_provider stream_fixture_config [] "hi".toList 0
    "demo-model".toList rfl (by decide), dialogue_loop]
  rfl

/-- C1 (amended): for every provider that on every round-trip returns at
least one tool call, all of whose names match the registered tool,
`run_dialogue` (past its preconditions) terminates after at most 4 total
chat-completion round-trips, returns normally with graceful truncation,
and the appended-message set is non-empty (it contains the Tool messages
of the executed calls). The original claim's unconditional normal return
fails when a returned tool call bears an unregistered name
(`C1_counterexample`): the turn then surfaces an error instead. -/
theorem C1_bounded_dialogue_amended (provider : Provider) (config : LlmConfiguration)
    (history : List ChatMessage) (input : Str) (counter : Nat) (model : Str)
    (hm : config.selected_model = some model) (hi : trim input ≠ [])
    (hp : ∀ conv, (provider conv).tool_calls ≠ []
      ∧ ∀ c ∈ (provider conv).tool_calls, c.name = "mock_echo".toList) :
    ∃ out, run_dialogue provider config history input counter = .ok out
      ∧ out.round_trips ≤ 4 ∧ out.messages ≠ [] := by
  rw [run_dialogue_unfold provider config history input counter model hm
    (List.isEmpty_eq_false.mpr hi)]
  obtain ⟨out, hout, hrt, hlen⟩ := dialogue_loop_good provider hp 4 0 _ _ [] (counter + 1)
    rfl (by omega) (hp _).1 (hp _).2
  refine ⟨out, hout, hrt, ?_⟩
  intro hnil
  rw [hnil] at hlen
  simp at hlen

/-- C1 witness fixture: a provider that always calls the registered echo
tool. -/
def echo_tool_provider : Provider := fun _ =>
  { content := none
    tool_calls := [{ id := "call-1".toList, name := "mock_echo".toList,
                     arguments := .obj [("text".toList, .str "hi".toList)] }] }

/-- Witness for `C1_bounded_dialogue_amended` at a concrete provider. -/
theorem C1_bounded_dialogue_amended_witness :
    ∃ out, run_dialogue echo_tool_provider stream_fixture_config [] "ping".toList 0 = .ok out
      ∧ out.round_trips ≤ 4 ∧ out.messages ≠ [] :=
  C1_bounded_dialogue_amended echo_tool_provider stream_fixture_config [] "ping".toList 0
    "demo-model".toList rfl (by decide)
    (fun conv => ⟨by simp [echo_tool_provider], by simp [echo_tool_provider]⟩)

theorem dialogue_loop_unknown_tool (provider : Provider) (pending : AssistantTurn)
    (conversation appended : List ChatMessage) (counter iterations rt : Nat)
    (good : List ToolCall) (bad : ToolCall) (rest : List ToolCall)
    (hcalls : pending.tool_calls = good ++ bad :: rest)
    (hg : ∀ c ∈ good, c.name = "mock_echo".toList)
    (hb : bad.name ≠ "mock_echo".toList) :
    dialogue_loop provider pending conversation appended counter iterations rt
      = .error (.Tool ("Unknown tool: ".toList ++ bad.name)) := by
  have hempty : pending.tool_calls.isEmpty = false := by
    rw [hcalls]
    simp
  rw [dialogue_loop]
  simp only [hempty, Bool.false_eq_true, if_false]
  rw [hcalls, execute_tool_calls_unknown good bad rest hg hb]

/-- C7: when a provider round-trip returns a tool call whose name does not
exactly match a registered implementation, the turn fails non-fatally with
the descriptive unknown-tool error: at any loop state, a pending response
whose calls contain an unregistered name makes the loop return that error
(first conjunct, so no further round-trip is issued in the turn — the
result does not depend on the provider's later behavior), and
`run_dialogue` surfaces the same error to the caller when the first
round-trip returns such a call (second conjunct). -/
theorem C7_unknown_tool_error :
    (∀ (provider : Provider) (pending : AssistantTurn)
      (conversation appended : List ChatMessage) (counter iterations rt : Nat)
      (good : List ToolCall) (bad : ToolCall) (rest : List ToolCall),
      pending.tool_calls = good ++ bad :: rest →
      (∀ c ∈ good, c.name = "mock_echo".toList) →
      bad.name ≠ "mock_echo".toList →
      dialogue_loop provider pending conversation appended counter iterations rt
        = .error (.Tool ("Unknown tool: ".toList ++ bad.name)))
    ∧ (∀ (provider : Provider) (config : LlmConfiguration)
      (history : List ChatMessage) (input : Str) (counter : Nat) (model : Str)
      (good : List ToolCall) (bad : ToolCall) (rest : List ToolCall),
      config.selected_model = some model → trim input ≠ [] →
      (provider (history ++ [{ id := next_id "user".toList counter, role := .user,
                               content := trim input, tool_call_id := none }])).tool_calls
        = good ++ bad :: rest →
      (∀ c ∈ good, c.name = "mock_echo".toList) →
      bad.name ≠ "mock_echo".toList →
      run_dialogue provider config history input counter
        = .error (.Tool ("Unknown tool: ".toList ++ bad.name))) := by
  refine ⟨dialogue_loop_unknown_tool, ?_⟩
  intro provider config history input counter model good bad rest hm hi hcalls hg hb
  rw [run_dialogue_unfold provider config history input counter model hm
    (List.isEmpty_eq_false.mpr hi)]
  exact dialogue_loop_unknown_tool provider _ _ [] (counter + 1) 0 1 good bad rest hcalls hg hb

/-- Witness for `C7_unknown_tool_error` at a concrete unregistered tool
name. -/
theorem C7_unknown_tool_error_witness :
    run_dialogue bogus_tool_provider stream_fixture_config [] "run the tool".toList 5
      = .error (.Tool ("Unknown tool: ".toList ++ "bogus".toList)) :=
  C7_unknown_tool_error.2 bogus_tool_provider stream_fixture_config [] "run the tool".toList 5
    "demo-model".toList [] { id := "call-1".toList, name := "bogus".toList, arguments := .null }
    [] rfl (by decide) rfl (by simp) (by decide)

/- ### Tool-linkage invariant (claim C9) -/

theorem dialogue_loop_linkage (provider : Provider) :
    ∀ (fuel iterations : Nat) (pending : AssistantTurn)
      (conversation appended : List ChatMessage) (counter rt : Nat)
      (out : DialogueOutcome),
      4 - iterations = fuel →
      dialogue_loop provider pending conversation appended counter iterations rt = .ok out →
      (∀ m ∈ appended, tool_linkage_ok m = true) →
      ∀ m ∈ out.messages, tool_linkage_ok m = true := by
  intro fuel
  induction fuel with
  | zero =>
    intro iterations pending conv app ctr rt out hfuel hloop happ
    rw [dialogue_loop] at hloop
    by_cases hempty : pending.tool_calls.isEmpty
    · rw [if_pos hempty] at hloop
      injection hloop with h
      subst h
      exact append_assistant_linkage _ _ _ _ happ
    · rw [if_neg hempty] at hloop
      cases hexec : execute_tool_calls pending.tool_calls
          (append_assistant pending.content conv app ctr).1
          (append_assistant pending.content conv app ctr).2.1
          (append_assistant pending.content conv app ctr).2.2 with
      | error e =>
        rw [hexec] at hloop
        simp at hloop
      | ok s2 =>
        rw [hexec] at hloop
        dsimp only at hloop
        rw [if_pos (show iterations + 1 > 3 by omega)] at hloop
        injection hloop with h
        subst h
        exact execute_tool_calls_linkage _ _ _ _ _ hexec
          (append_assistant_linkage _ _ _ _ happ)
  | succ n ihn =>
    intro iterations pending conv app ctr rt out hfuel hloop happ
    rw [dialogue_loop] at hloop
    by_cases hempty : pending.tool_calls.isEmpty
    · rw [if_pos hempty] at hloop
      injection hloop with h
      subst h
      exact append_assistant_linkage _ _ _ _ happ
    · rw [if_neg hempty] at hloop
      cases hexec : execute_tool_calls pending.tool_calls
          (append_assistant pending.content conv app ctr).1
          (append_assistant pending.content conv app ctr).2.1
          (append_assistant pending.content conv app ctr).2.2 with
      | error e =>
        rw [hexec] at hloop
        simp at hloop
      | ok s2 =>
        rw [hexec] at hloop
        dsimp only at hloop
        by_cases hiter : iterations + 1 > 3
        · rw [if_pos hiter] at hloop
          injection hloop with h
          subst h
          exact execute_tool_calls_linkage _ _ _ _ _ hexec
            (append_assistant_linkage _ _ _ _ happ)
        · rw [if_neg hiter] at hloop
          exact ihn (iterations + 1) (provider s2.1) s2.1 s2.2.1 s2.2.2 (rt + 1) out
            (by omega) hloop
            (execute_tool_calls_linkage _ _ _ _ _ hexec
              (append_assistant_linkage _ _ _ _ happ))

/-- C9 counterexample: the `ChatMessage` type does not enforce the
tool-linkage invariant at construction — all fields are public and
deserializable, so a User message carrying a linkage id is a legal value
and violates the claimed for-every-ChatMessage invariant. -/
theorem C9_counterexample :
    tool_linkage_ok { id := "m-1".toList, role := .user, content := "hi".toList,
                      tool_call_id := some "t-1".toList } = false := by
  decide

/-- C9 (amended): the invariant is not enforced for arbitrary
`ChatMessage` values (`C9_counterexample`: construction and caller-supplied
history may violate it), but every message appended by `run_dialogue`
satisfies it — Tool messages carry a linkage id et User and Assistant
messages carry none. -/
theorem C9_linkage_amended (provider : Provider) (config : LlmConfiguration)
    (history : List ChatMessage) (input : Str) (counter : Nat) (out : DialogueOutcome)
    (h : run_dialogue provider config history input counter = .ok out) :
    out.messages.all tool_linkage_ok = true := by
  rw [List.all_eq_true]
  by_cases hi : (trim input).isEmpty
  · simp only [run_dialogue, hi, if_true] at h
    exact Except.noConfusion h
  · have hi' : (trim input).isEmpty = false := by simpa using hi
    cases hm : config.selected_model with
    | none =>
      simp only [run_dialogue, hi', Bool.false_eq_true, if_false, hm] at h
      exact Except.noConfusion h
    | some model =>
      rw [run_dialogue_unfold provider config history input counter model hm hi'] at h
      exact dialogue_loop_linkage provider 4 0 _ _ [] (counter + 1) 1 out rfl h (by simp)

/-- Witness for `C9_linkage_amended`: a turn against a provider that
answers with plain text produces one Assistant message, which satisfies
the invariant. -/
theorem C9_linkage_amended_witness :
    (DialogueOutcome.mk [{ id := "assistant-1".toList, role := .assistant,
                           content := "All done.".toList, tool_call_id := none }] 1).messages.all
      tool_linkage_ok = true :=
  C9_linkage_amended (fun _ => { content := some "All done.".toList, tool_calls := [] })
    stream_fixture_config [] "hi".toList 0 _
    (by
      rw [run_dialogue_unfold (fun _ => { content := some "All done.".toList, tool_calls := [] })
        stream_fixture_config [] "hi".toList 0 "demo-model".toList rfl (by decide),
        dialogue_loop]
      rfl)

end ShellWerk
